import Mathlib

/-!
# Smart-ATS analysis pipeline: shallow embedding and verification

This file embeds the core AI-response analysis pipeline of the Smart-ATS
service (`src/app.py`): the response normalizer `parse_ai_response`
(lines 91-156) and the orchestrator logic of `analyze_resume`
(lines 243-283: retry loop, fallback payloads, post-hoc validation).

Python values parsed from JSON are modelled by `PyVal`; Python string
operations (`strip`, `replace`, `find`, `rfind`, `split`, slicing,
`in`) are modelled character-exactly on `List Char`; `json.loads` is
modelled by a strict recursive-descent parser following CPython's
`json` module grammar.  Operations that can raise in Python return
`Except PyErr`; the `try/except` blocks of the source become explicit
`match`es on those results.
-/

namespace SmartATS

/-- Python error: just the message text.  The exact CPython message
strings (e.g. the line/column detail of `JSONDecodeError`) are
abstracted to short stable texts; no verified property depends on the
message content, only on which branch raised. -/
abbrev PyErr := String

/-- A Python value as produced by `json.loads`: strings, arbitrary
precision integers, floats, booleans, `None`, lists and dicts.
Floats carry their source lexeme: CPython's shortest-roundtrip float
repr is abstracted (no verified property evaluates a float). -/
inductive PyVal where
  | vstr (s : String)
  | vint (n : Int)
  | vfloat (lexeme : String)
  | vbool (b : Bool)
  | vnone
  | vlist (elems : List PyVal)
  | vdict (entries : List (String × PyVal))
deriving Repr

/-! ## Characters used in the source that the surrounding tooling
prefers spelled numerically. -/

/-- The character `{` (codepoint 123). -/
def lbrace : Char := Char.ofNat 123

/-- The character `}` (codepoint 125). -/
def rbrace : Char := Char.ofNat 125

/-- The single-quote character (codepoint 39). -/
def squote : Char := Char.ofNat 39

/-- The double-quote character. -/
def dquote : Char := '"'

/-- The backtick character (codepoint 96). -/
def btick : Char := Char.ofNat 96

/-! ## Python `str` operations on `List Char` -/

/-- The whitespace characters stripped by Python's `str.strip()`
(the Latin-1 part of `str.isspace()`; Unicode space separators beyond
`\x85` are not exercised by any input in this development). -/
def isPySpace (c : Char) : Bool :=
  c = ' ' || c = '\t' || c = '\n' || c = '\r' || c = Char.ofNat 11 || c = Char.ofNat 12
    || c = Char.ofNat 28 || c = Char.ofNat 29 || c = Char.ofNat 30 || c = Char.ofNat 31
    || c = Char.ofNat 133

/-- Drop leading Python whitespace (`str.lstrip()`). -/
def pyLStrip (l : List Char) : List Char := l.dropWhile isPySpace

/-- Drop trailing Python whitespace (`str.rstrip()`). -/
def pyRStrip (l : List Char) : List Char := (pyLStrip l.reverse).reverse

/-- Python `str.strip()`. -/
def pyStrip (l : List Char) : List Char := pyLStrip (pyRStrip l)

/-- Python `str.startswith(pat)` (list-prefix test). -/
def isPrefixList : List Char → List Char → Bool
  | [], _ => true
  | _ :: _, [] => false
  | p :: ps, c :: cs => p = c && isPrefixList ps cs

/-- Python `pat in s` (contiguous-substring test). -/
def containsSub (pat : List Char) : List Char → Bool
  | [] => isPrefixList pat []
  | c :: cs => isPrefixList pat (c :: cs) || containsSub pat cs

/-- Python `c in s` for a single character. -/
def containsChar (c : Char) : List Char → Bool
  | [] => false
  | x :: xs => x = c || containsChar c xs

/-- Worker for `pyReplace`: leftmost, non-overlapping replacement of
`pat` by `rep`, scanning left to right exactly as CPython's
`str.replace`.  `fuel` bounds the recursion; every call site passes at
least the length of the scanned list, which suffices because `pat` is
non-empty at every call site. -/
def replaceAux (pat rep : List Char) : Nat → List Char → List Char
  | _, [] => []
  | 0, s => s
  | fuel + 1, c :: cs =>
    if isPrefixList pat (c :: cs) then
      rep ++ replaceAux pat rep fuel (List.drop pat.length (c :: cs))
    else
      c :: replaceAux pat rep fuel cs

/-- Python `s.replace(pat, rep)` (for non-empty `pat`). -/
def pyReplace (pat rep s : List Char) : List Char := replaceAux pat rep s.length s

/-- Python `s.find(c)`: index of the first occurrence, `-1` if absent. -/
def pyFindChar (c : Char) : List Char → Int
  | [] => -1
  | x :: xs =>
    if x = c then 0
    else
      let r := pyFindChar c xs
      if r = -1 then -1 else r + 1

/-- Python `s.rfind(c)`: index of the last occurrence, `-1` if absent. -/
def pyRFindChar (c : Char) (l : List Char) : Int :=
  let r := pyFindChar c l.reverse
  if r = -1 then -1 else (l.length : Int) - 1 - r

/-- Python slicing `s[a:b]` for the index forms the source produces
(`a ≥ 0`, `b ≥ 0`; an empty range yields the empty string). -/
def pySlice (l : List Char) (a b : Int) : List Char :=
  (l.drop a.toNat).take (b - a).toNat

/-- Python `s[:n]` for `n ≥ 0`. -/
def pyTake (l : List Char) (n : Nat) : List Char := l.take n

/-- Python `s.split(sep)` for a single-character separator: splits at
every occurrence, keeping empty chunks. -/
def pySplitChar (sep : Char) : List Char → List (List Char)
  | [] => [[]]
  | c :: cs =>
    let rest := pySplitChar sep cs
    if c = sep then [] :: rest
    else
      match rest with
      | [] => [[c]]
      | chunk :: more => (c :: chunk) :: more

/-! ## `json.loads`: strict recursive-descent parser following CPython's
`json` module (decoder grammar, `strict=True`).  The scanner consumes
at least one character between any two successive recursive calls, so
the fuel `2 * length + 2` passed at top level is ample; running out of
fuel is unreachable on the inputs this development evaluates, and a
fuel error is in any case absorbed by the same `except` branches as
any other decode error. -/

/-- JSON whitespace, as skipped by CPython's decoder (`[ \t\n\r]`). -/
def isJsonWs (c : Char) : Bool := c = ' ' || c = '\t' || c = '\n' || c = '\r'

/-- Skip JSON whitespace. -/
def skipJsonWs (l : List Char) : List Char := l.dropWhile isJsonWs

/-- ASCII digit test (codepoints 48-57). -/
def isDigitCh (c : Char) : Bool := 48 ≤ c.toNat && c.toNat ≤ 57

/-- Split off a maximal run of digits. -/
def takeDigitRun (l : List Char) : List Char × List Char := l.span isDigitCh

/-- Numeric value of a digit run. -/
def digitRunVal (ds : List Char) : Nat :=
  ds.foldl (fun acc c => 10 * acc + (c.toNat - 48)) 0

/-- Hex digit value (digits, then lowercase, then uppercase). -/
def hexDigitVal (c : Char) : Option Nat :=
  let n := c.toNat
  if 48 ≤ n ∧ n ≤ 57 then some (n - 48)
  else if 97 ≤ n ∧ n ≤ 102 then some (n - 87)
  else if 65 ≤ n ∧ n ≤ 70 then some (n - 55)
  else none

/-- Parse a JSON number at the head of the input, mirroring CPython's
`NUMBER_RE` (maximal munch: a `.` or `e` not followed by a digit is
left unconsumed).  Integers (no fraction, no exponent) become Python
`int`s; anything else becomes a float carrying its lexeme. -/
def parseJNum (cs : List Char) : Except PyErr (PyVal × List Char) :=
  let (sign, cs1) := match cs with
    | '-' :: r => ((['-'] : List Char), r)
    | _ => ([], cs)
  match cs1 with
  | '0' :: r =>
    parseJNumTail sign ['0'] r
  | c :: _ =>
    if isDigitCh c then
      let (ds, r) := takeDigitRun cs1
      parseJNumTail sign ds r
    else .error "Expecting value"
  | [] => .error "Expecting value"
where
  /-- After the integer part: optional fraction and exponent. -/
  parseJNumTail (sign intDs : List Char) (r : List Char) :
      Except PyErr (PyVal × List Char) :=
    let (fracDs, r1) := match r with
      | '.' :: d :: rest =>
        if isDigitCh d then
          let (ds, rr) := takeDigitRun (d :: rest)
          ('.' :: ds, rr)
        else ([], r)
      | _ => ([], r)
    let (expDs, r2) := match r1 with
      | e :: d :: rest =>
        if (e = 'e' || e = 'E') && isDigitCh d then
          let (ds, rr) := takeDigitRun (d :: rest)
          (e :: ds, rr)
        else if (e = 'e' || e = 'E') && (d = '+' || d = '-') then
          match rest with
          | d2 :: rest2 =>
            if isDigitCh d2 then
              let (ds, rr) := takeDigitRun (d2 :: rest2)
              (e :: d :: ds, rr)
            else ([], r1)
          | [] => ([], r1)
        else ([], r1)
      | _ => ([], r1)
    if fracDs = [] && expDs = [] then
      let n : Int := (digitRunVal intDs : Int)
      .ok (.vint (if sign = [] then n else -n), r2)
    else
      .ok (.vfloat (String.mk (sign ++ intDs ++ fracDs ++ expDs)), r2)

/-- Parse the body of a JSON string after the opening quote, mirroring
CPython's `py_scanstring` with `strict=True`: raw control characters
are rejected, `\uXXXX` escapes are decoded with surrogate-pair
combination.  (A lone surrogate, which CPython keeps as an unpaired
code unit, has no `Char` representation and is mapped through
`Char.ofNat`; no evaluated input contains one.)  The fuel (first
argument) makes the recursion structural; each step consumes at least
one character, so the `length + 1` passed by `parseJStr` is ample. -/
def parseJStrAux : Nat → List Char → List Char → Except PyErr (String × List Char)
  | 0, _, _ => .error "json fuel exhausted"
  | _ + 1, _, [] => .error "Unterminated string starting at"
  | fuel + 1, acc, c :: rest =>
    if c = dquote then .ok (String.mk acc.reverse, rest)
    else if c = '\\' then
      match rest with
      | 'u' :: a :: b :: c2 :: d :: rest2 =>
        match hexDigitVal a, hexDigitVal b, hexDigitVal c2, hexDigitVal d with
        | some va, some vb, some vc, some vd =>
          let n := 4096 * va + 256 * vb + 16 * vc + vd
          if 0xD800 ≤ n && n ≤ 0xDBFF then
            match rest2 with
            | '\\' :: 'u' :: a2 :: b2 :: c3 :: d2 :: rest3 =>
              match hexDigitVal a2, hexDigitVal b2, hexDigitVal c3, hexDigitVal d2 with
              | some wa, some wb, some wc, some wd =>
                let m := 4096 * wa + 256 * wb + 16 * wc + wd
                if 0xDC00 ≤ m && m ≤ 0xDFFF then
                  parseJStrAux fuel
                    (Char.ofNat ((n - 55296) * 1024 + (m - 56320) + 65536) :: acc)
                    rest3
                else parseJStrAux fuel (Char.ofNat n :: acc) rest2
              | _, _, _, _ => parseJStrAux fuel (Char.ofNat n :: acc) rest2
            | _ => parseJStrAux fuel (Char.ofNat n :: acc) rest2
          else parseJStrAux fuel (Char.ofNat n :: acc) rest2
        | _, _, _, _ => .error "Invalid \\uXXXX escape"
      | e :: rest2 =>
        if e = dquote then parseJStrAux fuel (dquote :: acc) rest2
        else if e = '\\' then parseJStrAux fuel ('\\' :: acc) rest2
        else if e = '/' then parseJStrAux fuel ('/' :: acc) rest2
        else if e = 'b' then parseJStrAux fuel (Char.ofNat 8 :: acc) rest2
        else if e = 'f' then parseJStrAux fuel (Char.ofNat 12 :: acc) rest2
        else if e = 'n' then parseJStrAux fuel ('\n' :: acc) rest2
        else if e = 'r' then parseJStrAux fuel ('\r' :: acc) rest2
        else if e = 't' then parseJStrAux fuel ('\t' :: acc) rest2
        else .error "Invalid \\escape"
      | [] => .error "Unterminated string starting at"
    else if c.toNat < 0x20 then .error "Invalid control character"
    else parseJStrAux fuel (c :: acc) rest

/-- Parse a JSON string body (input starts right after the opening
quote). -/
def parseJStr (cs : List Char) : Except PyErr (String × List Char) :=
  parseJStrAux (cs.length + 1) [] cs

mutual

/-- Scan one JSON value at the head of the input (no leading
whitespace), mirroring CPython's `scan_once`: strings, objects,
arrays, the literals `true` / `false` / `null`, numbers, and the
CPython extensions `NaN` / `Infinity` / `-Infinity`. -/
def parseJVal : Nat → List Char → Except PyErr (PyVal × List Char)
  | 0, _ => .error "json fuel exhausted"
  | _ + 1, [] => .error "Expecting value"
  | fuel + 1, c :: rest =>
    if c = dquote then
      match parseJStr rest with
      | .ok (s, r) => .ok (.vstr s, r)
      | .error e => .error e
    else if c = lbrace then parseJMembers fuel rest
    else if c = '[' then parseJItems fuel rest true
    else if isPrefixList "true".data (c :: rest) then .ok (.vbool true, (c :: rest).drop 4)
    else if isPrefixList "false".data (c :: rest) then .ok (.vbool false, (c :: rest).drop 5)
    else if isPrefixList "null".data (c :: rest) then .ok (.vnone, (c :: rest).drop 4)
    else if isPrefixList "NaN".data (c :: rest) then .ok (.vfloat "nan", (c :: rest).drop 3)
    else if isPrefixList "Infinity".data (c :: rest) then .ok (.vfloat "inf", (c :: rest).drop 8)
    else if isPrefixList "-Infinity".data (c :: rest) then .ok (.vfloat "-inf", (c :: rest).drop 9)
    else if c = '-' || isDigitCh c then parseJNum (c :: rest)
    else .error "Expecting value"

/-- Parse an object body after the opening brace (CPython's
`JSONObject`). -/
def parseJMembers : Nat → List Char → Except PyErr (PyVal × List Char)
  | 0, _ => .error "json fuel exhausted"
  | fuel + 1, cs =>
    let cs := skipJsonWs cs
    match cs with
    | [] => .error "Expecting property name enclosed in double quotes"
    | c :: rest =>
      if c = rbrace then .ok (.vdict [], rest)
      else if c = dquote then parseJPair fuel (c :: rest) []
      else .error "Expecting property name enclosed in double quotes"

/-- Parse one `"key": value` member (whose opening quote is at the
head of the input) and then either a `,` continuation or the closing
brace. -/
def parseJPair : Nat → List Char → List (String × PyVal) →
    Except PyErr (PyVal × List Char)
  | 0, _, _ => .error "json fuel exhausted"
  | fuel + 1, cs, acc =>
    match cs with
    | c :: rest =>
      if c = dquote then
        match parseJStr rest with
        | .error e => .error e
        | .ok (key, r1) =>
          match skipJsonWs r1 with
          | ':' :: r2 =>
            match parseJVal fuel (skipJsonWs r2) with
            | .error e => .error e
            | .ok (v, r3) =>
              match skipJsonWs r3 with
              | [] => .error "Expecting delimiter"
              | c2 :: r4 =>
                if c2 = rbrace then .ok (.vdict ((key, v) :: acc).reverse, r4)
                else if c2 = ',' then
                  match skipJsonWs r4 with
                  | c3 :: r5 =>
                    if c3 = dquote then parseJPair fuel (c3 :: r5) ((key, v) :: acc)
                    else .error "Expecting property name enclosed in double quotes"
                  | [] => .error "Expecting property name enclosed in double quotes"
                else .error "Expecting delimiter"
          | _ => .error "Expecting colon delimiter"
      else .error "Expecting property name enclosed in double quotes"
    | [] => .error "Expecting property name enclosed in double quotes"

/-- Parse an array body after the opening bracket (CPython's
`JSONArray`); `first` records whether we are before the first element
(so `]` may close an empty array). -/
def parseJItems : Nat → List Char → Bool → Except PyErr (PyVal × List Char)
  | 0, _, _ => .error "json fuel exhausted"
  | fuel + 1, cs, first =>
    let cs := skipJsonWs cs
    match cs with
    | [] => .error "Expecting value"
    | c :: rest =>
      if first && c = ']' then .ok (.vlist [], rest)
      else
        match parseJItemLoop fuel (c :: rest) [] with
        | .error e => .error e
        | .ok (vs, r) => .ok (.vlist vs, r)

/-- Parse array elements (the head of the input is the start of an
element) followed by `,` continuations or the closing bracket. -/
def parseJItemLoop : Nat → List Char → List PyVal →
    Except PyErr (List PyVal × List Char)
  | 0, _, _ => .error "json fuel exhausted"
  | fuel + 1, cs, acc =>
    match parseJVal fuel cs with
    | .error e => .error e
    | .ok (v, r1) =>
      match skipJsonWs r1 with
      | ']' :: r2 => .ok ((v :: acc).reverse, r2)
      | ',' :: r2 => parseJItemLoop fuel (skipJsonWs r2) (v :: acc)
      | _ => .error "Expecting delimiter"

end

/-- Python `json.loads`: skip surrounding whitespace, scan one value,
and reject trailing garbage (`Extra data`). -/
def jsonLoads (cs : List Char) : Except PyErr PyVal :=
  let cs1 := skipJsonWs cs
  match parseJVal (2 * cs1.length + 2) cs1 with
  | .error e => .error e
  | .ok (v, rest) =>
    if skipJsonWs rest = [] then .ok v else .error "Extra data"

/-! ## Python `str()` of a parsed JSON value -/

/-- Join chunks with a separator. -/
def joinSep (sep : List Char) : List (List Char) → List Char
  | [] => []
  | [x] => x
  | x :: y :: rest => x ++ sep ++ joinSep sep (y :: rest)

/-- Escape one character inside a Python string repr (the quote
character in use is escaped, as are backslash and the common control
characters; `\xNN` escaping of other non-printables is abstracted —
no verified property evaluates it). -/
def pyReprEscape (quote c : Char) : List Char :=
  if c = '\\' then ['\\', '\\']
  else if c = quote then ['\\', quote]
  else if c = '\n' then ['\\', 'n']
  else if c = '\r' then ['\\', 'r']
  else if c = '\t' then ['\\', 't']
  else [c]

/-- Python `repr` of a `str`: single-quoted unless the text contains a
single quote and no double quote. -/
def pyReprStr (s : String) : List Char :=
  let quote := if containsChar squote s.data && !containsChar dquote s.data
               then dquote else squote
  quote :: (s.data.map (pyReprEscape quote)).flatten ++ [quote]

mutual

/-- Python `repr` of a parsed JSON value (floats abstracted to their
lexeme). -/
def pyrepr : PyVal → List Char
  | .vstr s => pyReprStr s
  | .vint n => (toString n).data
  | .vfloat lex => lex.data
  | .vbool true => "True".data
  | .vbool false => "False".data
  | .vnone => "None".data
  | .vlist xs => '[' :: joinSep ", ".data (pyreprList xs) ++ [']']
  | .vdict entries => lbrace :: joinSep ", ".data (pyreprEntries entries) ++ [rbrace]

/-- `repr` of each list element. -/
def pyreprList : List PyVal → List (List Char)
  | [] => []
  | x :: xs => pyrepr x :: pyreprList xs

/-- `repr` of each dict entry, as `'key': value`. -/
def pyreprEntries : List (String × PyVal) → List (List Char)
  | [] => []
  | (k, v) :: rest => (pyReprStr k ++ ':' :: ' ' :: pyrepr v) :: pyreprEntries rest

end

/-- Python `str()` of a parsed JSON value: the text itself for a
`str`, `repr` otherwise. -/
def pystr : PyVal → List Char
  | .vstr s => s.data
  | v => pyrepr v

/-! ## The response normalizer `parse_ai_response` (`src/app.py` lines 91-156) -/

/-- The normalizer's result (`src/app.py` lines 131-135 and the
fallback dicts).  `jd_match` and `profile_summary` pass through
`str()` in the source and so are always strings; `missing_keywords`
does not, so it stays a dynamic `PyVal`. -/
structure AnalysisResult where
  jd_match : String
  missing_keywords : PyVal
  profile_summary : String
deriving Repr

/-- Python `dict.get(key, default)` over entries in insertion order
(for a duplicated key, the later entry has overwritten the earlier
one). -/
def dictGet : List (String × PyVal) → String → PyVal → PyVal
  | [], _, d => d
  | (k, v) :: rest, key, d => dictGet rest key (if k = key then v else d)

/-- Lines 127-129: if the keyword field came back as a single string,
split on commas, strip each piece and keep the non-empty ones
(`[kw.strip() for kw in missing_keywords.split(',') if kw.strip()]`);
any other value is left unchanged. -/
def coerceKeywords : PyVal → PyVal
  | .vstr s =>
    .vlist (((pySplitChar ',' s.data).filter
              (fun kw => pyStrip kw ≠ [])).map
              (fun kw => PyVal.vstr (String.mk (pyStrip kw))))
  | v => v

/-- Lines 122-135: read the three fields with primary/secondary key
names and defaults, coerce a string keyword field to a list, and
`str()` the match and summary.  `.get` on a non-dict would raise
`AttributeError` (unreachable from `parse_ai_response`, whose
candidate substring always starts with a brace, but modelled
faithfully). -/
def extract_fields : PyVal → Except PyErr AnalysisResult
  | .vdict entries =>
    let jd_match := dictGet entries "JD Match" (dictGet entries "jd_match" (.vstr "0%"))
    let missing_keywords :=
      dictGet entries "MissingKeywords" (dictGet entries "missing_keywords" (.vlist []))
    let profile_summary :=
      dictGet entries "Profile Summary"
        (dictGet entries "profile_summary" (.vstr "No summary available"))
    let missing_keywords := coerceKeywords missing_keywords
    .ok ⟨String.mk (pystr jd_match), missing_keywords, String.mk (pystr profile_summary)⟩
  | _ => .error "AttributeError"

/-- Lines 99-103: strip markdown code fences.  The source uses
`str.replace`, which replaces every occurrence, not only the leading
and trailing fence. -/
def strip_code_fences (t : List Char) : List Char :=
  if isPrefixList "```json".data t then
    pyStrip (pyReplace "```".data [] (pyReplace "```json".data [] t))
  else if isPrefixList "```".data t then
    pyStrip (pyReplace "```".data [] t)
  else t

/-- Lines 113-120: strict parse of the candidate; on a decode error,
one repair pass (single quotes to double quotes, then doubled double
quotes collapsed) and one retry, whose error propagates. -/
def parse_candidate (json_str : List Char) : Except PyErr PyVal :=
  match jsonLoads json_str with
  | .ok v => .ok v
  | .error _ =>
    let j1 := pyReplace [squote] [dquote] json_str
    let j2 := pyReplace [dquote, dquote] [dquote] j1
    jsonLoads j2

/-- Trim + fence stripping (lines 96-103): the text the brace search
runs on. -/
def preprocessed (t0 : List Char) : List Char := strip_code_fences (pyStrip t0)

/-- Lines 140-146: the no-JSON-structure fallback summary — the
processed text, truncated to 500 characters with `...` appended when
longer. -/
def truncatedSummary (t : List Char) : String :=
  String.mk (if 500 < t.length then pyTake t 500 ++ "...".data else t)

/-- Lines 105-147 on the already-preprocessed text: locate the brace
span, parse / repair / extract, or fall back to the default result.
(`end_idx` is `rfind + 1`, so the source's `end_idx != -1` test is
vacuously true; the branch is decided by `find` alone, exactly as in
the source.) -/
def parse_ai_response_core (t : List Char) : Except PyErr AnalysisResult :=
  if pyFindChar lbrace t ≠ -1 ∧ pyRFindChar rbrace t + 1 ≠ -1 then
    match parse_candidate (pySlice t (pyFindChar lbrace t) (pyRFindChar rbrace t + 1)) with
    | .error e => .error e
    | .ok v => extract_fields v
  else
    .ok ⟨"0%", .vlist [], truncatedSummary t⟩

/-- The body of `parse_ai_response` (lines 96-147): everything inside
the outer `try`.  An uncaught exception is an `.error`. -/
def parse_ai_response_body (t0 : List Char) : Except PyErr AnalysisResult :=
  parse_ai_response_core (preprocessed t0)

/-- `parse_ai_response` (lines 91-156): the body with the outer
`except Exception` turned into the default error result of lines
152-156. -/
def parse_ai_response_chars (t0 : List Char) : AnalysisResult :=
  match parse_ai_response_body t0 with
  | .ok r => r
  | .error e => ⟨"0%", .vlist [], "Error parsing response: " ++ e⟩

/-- `parse_ai_response` on a `String`. -/
def parse_ai_response (s : String) : AnalysisResult := parse_ai_response_chars s.data

/-! ## The orchestrator `analyze_resume` (`src/app.py` lines 243-283)

Only the analysis pipeline after PDF text extraction is modelled: the
extracted resume text is a parameter, and `get_gemini_response` is an
abstract invoker `Nat → Except PyErr String` giving the outcome of
each attempt (a successful `get_gemini_response` never carries the
empty string — it raises on an empty model response, lines 70-71 —
but the empty case is modelled anyway since line 265 checks it). -/

/-- A JSON payload returned to the caller plus its HTTP status. -/
structure ApiResponse where
  body : AnalysisResult
  status : Nat
deriving Repr

/-- How `analyze_resume` ran: number of invocation attempts made, the
`time.sleep` durations performed in order (seconds), and the response
returned. -/
structure AnalyzeOutcome where
  attempts : Nat
  sleeps : List Nat
  response : ApiResponse
deriving Repr

/-- How the retry loop of lines 248-263 ended. -/
inductive LoopExit where
  /-- `break` with a response (line 252). -/
  | success (text : String)
  /-- the `return` of the fallback payload at lines 255-262. -/
  | fallbackReturn
  /-- the `for` range ran out without a break (unreachable, since the
  last failing attempt returns; kept for shape-faithfulness). -/
  | noBreak
deriving Repr

/-- The retry loop of lines 248-263: `for attempt in
range(max_retries + 1)`, breaking on success, returning the fallback
when the last attempt fails, sleeping 1 second between attempts.
Returns (attempts made, sleeps performed, exit).  `fuel` is the
number of remaining loop iterations. -/
def retry_go (invoke : Nat → Except PyErr String) (max_retries : Nat) :
    Nat → Nat → Nat × List Nat × LoopExit
  | _, 0 => (0, [], .noBreak)
  | attempt, fuel + 1 =>
    match invoke attempt with
    | .ok t => (1, [], .success t)
    | .error _ =>
      if attempt = max_retries then (1, [], .fallbackReturn)
      else
        let (a, s, e) := retry_go invoke max_retries (attempt + 1) fuel
        (a + 1, 1 :: s, e)

/-- The fallback payload of lines 258-262, returned when every
attempt failed. -/
def fallback_unavailable (resume_text : List Char) : AnalysisResult :=
  ⟨"50%", .vlist [.vstr "Unable to analyze - AI service unavailable"],
   "Analysis temporarily unavailable due to AI service issues. Resume contains " ++
     toString resume_text.length ++ " characters of text. Please try again later."⟩

/-- The payload of lines 267-271, returned with status 500 when the
loop ended with no (or an empty) response. -/
def fallback_no_response : AnalysisResult :=
  ⟨"0%", .vlist [.vstr "Analysis failed"],
   "Unable to analyze resume at this time. Please try again later."⟩

/-- The post-hoc sanity check of lines 277-281: when the match field
is falsy (the empty string) or `"0%"`, and the summary is falsy or
contains `'Error'`, the summary is replaced by a descriptive
placeholder; nothing else is ever modified. -/
def validate_response (r : AnalysisResult) (resume_len : Nat) : AnalysisResult :=
  if r.jd_match = "" ∨ r.jd_match = "0%" then
    if r.profile_summary = "" ∨ containsSub "Error".data r.profile_summary.data = true then
      { r with profile_summary :=
          "Resume analysis completed. The document contains " ++
            toString resume_len ++ " characters of professional content." }
    else r
  else r

/-- `analyze_resume` from line 243 on (after PDF extraction and
prompt construction): the retry loop with `max_retries = 2`, the two
fallback payloads, normalization of a successful response and the
post-hoc validation.  Total: every path returns a payload. -/
def analyze_resume (invoke : Nat → Except PyErr String) (resume_text : List Char) :
    AnalyzeOutcome :=
  let (attempts, sleeps, ex) := retry_go invoke 2 0 3
  match ex with
  | .fallbackReturn => ⟨attempts, sleeps, ⟨fallback_unavailable resume_text, 200⟩⟩
  | .noBreak => ⟨attempts, sleeps, ⟨fallback_no_response, 500⟩⟩
  | .success t =>
    if t = "" then ⟨attempts, sleeps, ⟨fallback_no_response, 500⟩⟩
    else ⟨attempts, sleeps,
          ⟨validate_response (parse_ai_response t) resume_text.length, 200⟩⟩

/-! ## Statement helpers -/

/-- The spec's "sequence of strings" notion for the keyword field
(`AnalysisResult` invariant, §3 of the spec). -/
def isStringList : PyVal → Bool
  | .vlist xs => xs.all (fun v => match v with | .vstr _ => true | _ => false)
  | _ => false

/-! ## Concrete raw-output scenarios from the spec -/

/-- A one-character single-quote string (spelled via its codepoint). -/
def sglq : String := String.mk [squote]

/-- The spec §8 scenario: fenced, single-quoted model output. -/
def c7_raw : String :=
  "```json\n\x7b" ++ sglq ++ "JD Match" ++ sglq ++ ":" ++ sglq ++ "40%" ++ sglq ++ "," ++
  sglq ++ "MissingKeywords" ++ sglq ++ ":[]," ++ sglq ++ "Profile Summary" ++ sglq ++ ":" ++
  sglq ++ "Needs more cloud experience" ++ sglq ++ "\x7d\n```"

/-- Content whose JSON string values contain a triple backtick:
wrapping it in code fences changes what the normalizer extracts,
because the source strips fences with a global `str.replace`. -/
def c6_content : String :=
  "\x7b\"JD Match\": \"1```2\", \"MissingKeywords\": [], \"Profile Summary\": \"s\"\x7d"

/-- `c6_content` wrapped in a language-tagged code fence. -/
def c6_wrapped : String := "```json\n" ++ c6_content ++ "\n```"

/-! # Support lemmas -/

/-! ## Prefix and substring lemmas -/

/-- A prefix of `l` is a prefix of `l ++ r`. -/
theorem isPrefixList_append_right (p : List Char) :
    ∀ l r, isPrefixList p l = true → isPrefixList p (l ++ r) = true := by
  induction p with
  | nil => intro l r _; rfl
  | cons a ps ih =>
    intro l r h
    cases l with
    | nil => exact absurd h (by simp [isPrefixList])
    | cons c cs =>
      rw [isPrefixList, Bool.and_eq_true] at h
      rw [List.cons_append, isPrefixList, Bool.and_eq_true]
      exact ⟨h.1, ih cs r h.2⟩

/-- A prefix is no longer than the list. -/
theorem isPrefixList_length_le (p : List Char) :
    ∀ l, isPrefixList p l = true → p.length ≤ l.length := by
  induction p with
  | nil => intro l _; simp
  | cons a ps ih =>
    intro l h
    cases l with
    | nil => exact absurd h (by simp [isPrefixList])
    | cons c cs =>
      rw [isPrefixList, Bool.and_eq_true] at h
      simpa using ih cs h.2

/-- When `l` is at least as long as `p`, appending to `l` does not
change whether `p` is a prefix. -/
theorem isPrefixList_of_append_le (p : List Char) :
    ∀ l r, p.length ≤ l.length → isPrefixList p (l ++ r) = isPrefixList p l := by
  induction p with
  | nil => intro l r _; rfl
  | cons a ps ih =>
    intro l r hlen
    cases l with
    | nil => simp at hlen
    | cons c cs =>
      rw [List.cons_append, isPrefixList, isPrefixList, ih cs r (by simpa using hlen)]

/-- If `p ++ q` is a prefix then so is `p`. -/
theorem isPrefixList_append_left (p q : List Char) :
    ∀ s, isPrefixList (p ++ q) s = true → isPrefixList p s = true := by
  induction p with
  | nil => intro s _; rfl
  | cons a ps ih =>
    intro s h
    cases s with
    | nil => exact absurd h (by simp [isPrefixList])
    | cons c cs =>
      rw [List.cons_append, isPrefixList, Bool.and_eq_true] at h
      rw [isPrefixList, Bool.and_eq_true]
      exact ⟨h.1, ih cs h.2⟩

/-- Every list is a prefix of itself followed by anything. -/
theorem isPrefixList_refl_append (p : List Char) :
    ∀ r, isPrefixList p (p ++ r) = true := by
  induction p with
  | nil => intro r; rfl
  | cons a ps ih =>
    intro r
    rw [List.cons_append, isPrefixList, Bool.and_eq_true]
    exact ⟨by simp, ih r⟩

/-- A common leading block cancels in the prefix test. -/
theorem isPrefixList_append_cancel (p : List Char) :
    ∀ q r, isPrefixList (p ++ q) (p ++ r) = isPrefixList q r := by
  induction p with
  | nil => intro q r; rfl
  | cons a ps ih =>
    intro q r
    rw [List.cons_append, List.cons_append, isPrefixList, ih q r]
    simp

/-- `containsSub` holds exactly when the pattern is a prefix of some
suffix. -/
theorem containsSub_iff (pat : List Char) :
    ∀ l, containsSub pat l = true ↔ ∃ i, isPrefixList pat (List.drop i l) = true := by
  intro l
  induction l with
  | nil =>
    rw [containsSub]
    constructor
    · intro h; exact ⟨0, h⟩
    · intro ⟨i, hi⟩; simpa using hi
  | cons c cs ih =>
    rw [containsSub, Bool.or_eq_true]
    constructor
    · intro h
      cases h with
      | inl h => exact ⟨0, h⟩
      | inr h =>
        obtain ⟨i, hi⟩ := ih.mp h
        exact ⟨i + 1, hi⟩
    · intro ⟨i, hi⟩
      cases i with
      | zero => exact Or.inl hi
      | succ j => exact Or.inr (ih.mpr ⟨j, hi⟩)

/-- A prefix occurrence is an occurrence. -/
theorem containsSub_of_isPrefix (pat l : List Char) (h : isPrefixList pat l = true) :
    containsSub pat l = true :=
  (containsSub_iff pat l).mpr ⟨0, by simpa using h⟩

/-- An occurrence in a suffix is an occurrence. -/
theorem containsSub_of_drop (pat l : List Char) (i : Nat)
    (h : containsSub pat (List.drop i l) = true) : containsSub pat l = true := by
  obtain ⟨j, hj⟩ := (containsSub_iff pat (List.drop i l)).mp h
  rw [List.drop_drop] at hj
  exact (containsSub_iff pat l).mpr ⟨i + j, hj⟩

/-- An occurrence in `l` is an occurrence in `l ++ r`. -/
theorem containsSub_append_of_left (pat l r : List Char)
    (h : containsSub pat l = true) : containsSub pat (l ++ r) = true := by
  obtain ⟨i, hi⟩ := (containsSub_iff pat l).mp h
  by_cases hle : i ≤ l.length
  · refine (containsSub_iff pat (l ++ r)).mpr ⟨i, ?_⟩
    rw [List.drop_append_eq_append_drop, Nat.sub_eq_zero_of_le hle, List.drop_zero]
    exact isPrefixList_append_right pat _ _ hi
  · rw [List.drop_eq_nil_of_le (by omega)] at hi
    have : pat = [] := by cases pat with
      | nil => rfl
      | cons a ps => exact absurd hi (by simp [isPrefixList])
    subst this
    exact (containsSub_iff [] (l ++ r)).mpr ⟨0, rfl⟩

/-! ## Replacement lemmas -/

/-- `str.replace` with no occurrence of the pattern is the
identity. -/
theorem replaceAux_no_occ (pat : List Char) (f : Nat) :
    ∀ s, containsSub pat s = false → replaceAux pat [] f s = s := by
  induction f with
  | zero => intro s _; cases s <;> rfl
  | succ f ih =>
    intro s h
    cases s with
    | nil => rfl
    | cons c cs =>
      rw [containsSub, Bool.or_eq_false_iff] at h
      rw [replaceAux, if_neg (by simp [h.1]), ih cs h.2]

/-- `str.replace` scans past a region with no occurrence starting in
it. -/
theorem replaceAux_skip (pat : List Char) :
    ∀ pre suf (f : Nat),
      (∀ i, i < pre.length → isPrefixList pat (List.drop i (pre ++ suf)) = false) →
      replaceAux pat [] f (pre ++ suf) = pre ++ replaceAux pat [] (f - pre.length) suf := by
  intro pre
  induction pre with
  | nil => intro suf f _; simp
  | cons c pre' ih =>
    intro suf f hp
    cases f with
    | zero =>
      cases suf with
      | nil => simp [replaceAux]
      | cons x xs => simp [replaceAux]
    | succ f =>
      have h0 : isPrefixList pat (c :: (pre' ++ suf)) = false := by
        simpa using hp 0 (by simp)
      rw [List.cons_append, replaceAux, if_neg (by simp [h0])]
      rw [ih suf f (fun i hi => by simpa [List.drop] using hp (i + 1) (by simpa using hi))]
      simp [Nat.succ_sub_succ]

/-- `str.replace` erases the pattern when it sits at the head. -/
theorem replaceAux_head_match (pat rest : List Char) (f : Nat) (hpat : pat ≠ []) :
    replaceAux pat [] (f + 1) (pat ++ rest) = replaceAux pat [] f rest := by
  cases pat with
  | nil => exact absurd rfl hpat
  | cons a ps =>
    have hpre : isPrefixList (a :: ps) (a :: (ps ++ rest)) = true := by
      simpa using isPrefixList_refl_append (a :: ps) rest
    rw [List.cons_append, replaceAux, if_pos hpre, List.nil_append]
    congr 1
    rw [← List.cons_append, List.drop_left]

/-- `str.replace` erases a list equal to the pattern (with any
non-zero fuel). -/
theorem replaceAux_self (pat : List Char) (f : Nat) (hpat : pat ≠ []) (hf : f ≠ 0) :
    replaceAux pat [] f pat = [] := by
  cases f with
  | zero => exact absurd rfl hf
  | succ g =>
    have h := replaceAux_head_match pat [] g hpat
    rw [List.append_nil] at h
    rw [h]
    cases g <;> rfl

/-! ## `strip` lemmas -/

/-- `lstrip` drops a leading whitespace character. -/
theorem pyLStrip_cons_ws (c : Char) (l : List Char) (h : isPySpace c = true) :
    pyLStrip (c :: l) = pyLStrip l := by
  simp [pyLStrip, List.dropWhile, h]

/-- `lstrip` keeps a leading non-whitespace character. -/
theorem pyLStrip_cons_not_ws (c : Char) (l : List Char) (h : isPySpace c = false) :
    pyLStrip (c :: l) = c :: l := by
  simp [pyLStrip, List.dropWhile, h]

/-- `lstrip` distributes over an append whose left part does not
strip to nothing. -/
theorem pyLStrip_append_of_ne_nil (a b : List Char) (h : pyLStrip a ≠ []) :
    pyLStrip (a ++ b) = pyLStrip a ++ b := by
  induction a with
  | nil => exact absurd rfl h
  | cons c a' ih =>
    by_cases hc : isPySpace c = true
    · rw [List.cons_append, pyLStrip_cons_ws c _ hc, pyLStrip_cons_ws c _ hc]
      rw [pyLStrip_cons_ws c _ hc] at h
      exact ih h
    · rw [Bool.not_eq_true] at hc
      rw [List.cons_append, pyLStrip_cons_not_ws c _ hc, pyLStrip_cons_not_ws c _ hc,
          List.cons_append]

/-- `lstrip` skips over an all-whitespace left part. -/
theorem pyLStrip_append_of_nil (a b : List Char) (h : pyLStrip a = []) :
    pyLStrip (a ++ b) = pyLStrip b := by
  induction a with
  | nil => rfl
  | cons c a' ih =>
    by_cases hc : isPySpace c = true
    · rw [pyLStrip_cons_ws c _ hc] at h
      rw [List.cons_append, pyLStrip_cons_ws c _ hc]
      exact ih h
    · rw [Bool.not_eq_true] at hc
      rw [pyLStrip_cons_not_ws c _ hc] at h
      exact absurd h (by simp)

/-- `rstrip` drops a trailing whitespace character. -/
theorem pyRStrip_append_ws (l : List Char) (c : Char) (h : isPySpace c = true) :
    pyRStrip (l ++ [c]) = pyRStrip l := by
  unfold pyRStrip
  rw [List.reverse_append, List.reverse_singleton, List.singleton_append,
      pyLStrip_cons_ws c _ h]

/-- `rstrip` keeps a trailing non-whitespace character. -/
theorem pyRStrip_append_not_ws (l : List Char) (c : Char) (h : isPySpace c = false) :
    pyRStrip (l ++ [c]) = l ++ [c] := by
  unfold pyRStrip
  rw [List.reverse_append, List.reverse_singleton, List.singleton_append,
      pyLStrip_cons_not_ws c _ h]
  simp

/-- `strip` absorbs a trailing newline. -/
theorem pyStrip_append_nl (l : List Char) : pyStrip (l ++ ['\n']) = pyStrip l := by
  unfold pyStrip
  rw [pyRStrip_append_ws l '\n' (by rfl)]

/-- `strip` absorbs a leading newline. -/
theorem pyStrip_cons_nl (l : List Char) : pyStrip ('\n' :: l) = pyStrip l := by
  unfold pyStrip
  by_cases hnil : pyLStrip l.reverse = []
  · unfold pyRStrip
    rw [List.reverse_cons, pyLStrip_append_of_nil _ _ hnil]
    rw [show pyLStrip ['\n'] = pyLStrip [] from pyLStrip_cons_ws '\n' [] (by rfl)]
    rw [hnil]
    rfl
  · unfold pyRStrip
    rw [List.reverse_cons, pyLStrip_append_of_ne_nil _ _ hnil]
    rw [List.reverse_append, List.reverse_singleton, List.singleton_append,
        pyLStrip_cons_ws '\n' _ (by rfl)]

/-- `strip` of a list with non-whitespace characters at both ends is
the identity. -/
theorem pyStrip_id_of_ends (c d : Char) (m : List Char)
    (hc : isPySpace c = false) (hd : isPySpace d = false) :
    pyStrip (c :: (m ++ [d])) = c :: (m ++ [d]) := by
  unfold pyStrip
  rw [show c :: (m ++ [d]) = (c :: m) ++ [d] from rfl,
      pyRStrip_append_not_ws (c :: m) d hd,
      show (c :: m) ++ [d] = c :: (m ++ [d]) from rfl,
      pyLStrip_cons_not_ws c _ hc]

/-! ## Occurrence transfer through `strip` -/

/-- An occurrence in `lstrip l` is an occurrence in `l`. -/
theorem containsSub_pyLStrip (pat l : List Char)
    (h : containsSub pat (pyLStrip l) = true) : containsSub pat l = true := by
  induction l with
  | nil => exact h
  | cons c cs ih =>
    by_cases hc : isPySpace c = true
    · rw [pyLStrip_cons_ws c _ hc] at h
      rw [containsSub, Bool.or_eq_true]
      exact Or.inr (ih h)
    · rw [Bool.not_eq_true] at hc
      rwa [pyLStrip_cons_not_ws c _ hc] at h

/-- `lstrip` strips off a (possibly empty) leading block. -/
theorem pyLStrip_decomp (l : List Char) : ∃ s, s ++ pyLStrip l = l := by
  induction l with
  | nil => exact ⟨[], rfl⟩
  | cons c cs ih =>
    by_cases hc : isPySpace c = true
    · obtain ⟨s, hs⟩ := ih
      rw [pyLStrip_cons_ws c _ hc]
      exact ⟨c :: s, by rw [List.cons_append, hs]⟩
    · rw [Bool.not_eq_true] at hc
      rw [pyLStrip_cons_not_ws c _ hc]
      exact ⟨[], rfl⟩

/-- `rstrip l` is a prefix of `l`. -/
theorem pyRStrip_prefix (l : List Char) : ∃ t, l = pyRStrip l ++ t := by
  obtain ⟨s, hs⟩ := pyLStrip_decomp l.reverse
  refine ⟨s.reverse, ?_⟩
  unfold pyRStrip
  calc l = l.reverse.reverse := by rw [List.reverse_reverse]
  _ = (s ++ pyLStrip l.reverse).reverse := by rw [hs]
  _ = (pyLStrip l.reverse).reverse ++ s.reverse := by rw [List.reverse_append]

/-- An occurrence in `rstrip l` is an occurrence in `l`. -/
theorem containsSub_pyRStrip (pat l : List Char)
    (h : containsSub pat (pyRStrip l) = true) : containsSub pat l = true := by
  obtain ⟨t, ht⟩ := pyRStrip_prefix l
  rw [ht]
  exact containsSub_append_of_left pat _ t h

/-- An occurrence in `strip l` is an occurrence in `l`. -/
theorem containsSub_pyStrip (pat l : List Char)
    (h : containsSub pat (pyStrip l) = true) : containsSub pat l = true :=
  containsSub_pyRStrip pat l (containsSub_pyLStrip pat _ h)

/-! ## Code-fence arithmetic

For content `c` with no `` ``` `` occurrence, the fence-wrapped text
`` ```json\n<c>\n``` `` (or `` ```\n<c>\n``` ``) is processed by the
fence stripper into exactly `strip c`. -/

/-- No `` ``` `` can start inside `'\n' :: c ++ ['\n']` (viewed inside
the fenced remainder): the backtick runs of `c` are too short and the
newlines break any run touching the trailing fence. -/
theorem ticks_not_prefix_mid (c : List Char) (h : containsSub "```".data c = false) :
    ∀ i, i < ('\n' :: (c ++ ['\n'])).length →
      isPrefixList "```".data (List.drop i (('\n' :: (c ++ ['\n'])) ++ "```".data)) = false := by
  intro i hi
  have hi' : i < c.length + 2 := by simpa using hi
  cases i with
  | zero => exact rfl
  | succ j =>
    have hj : j ≤ c.length := by omega
    rw [List.cons_append, List.drop_succ_cons, List.append_assoc, List.singleton_append,
        List.drop_append_eq_append_drop, Nat.sub_eq_zero_of_le hj, List.drop_zero]
    rcases hd : List.drop j c with _ | ⟨d1, _ | ⟨d2, _ | ⟨d3, rest3⟩⟩⟩
    · exact rfl
    · rw [List.cons_append, List.nil_append]
      rw [show "```".data = [btick, btick, btick] from rfl]
      simp only [isPrefixList]
      rw [show (decide (btick = '\n')) = false from by decide]
      simp
    · rw [List.cons_append, List.cons_append, List.nil_append]
      rw [show "```".data = [btick, btick, btick] from rfl]
      simp only [isPrefixList]
      rw [show (decide (btick = '\n')) = false from by decide]
      simp
    · rw [isPrefixList_of_append_le _ _ _ (by
        rw [show ("```".data).length = 3 from rfl]
        simp)]
      by_contra hcon
      rw [Bool.not_eq_false] at hcon
      rw [← hd] at hcon
      have hc : containsSub "```".data c = true :=
        containsSub_of_drop _ _ j (containsSub_of_isPrefix _ _ hcon)
      rw [h] at hc
      exact Bool.false_ne_true hc

/-- No `` ```json `` occurs in the fenced remainder
`'\n' :: c ++ '\n' :: ` `` ``` `` when `c` has no `` ``` ``. -/
theorem no_occurrence_tag (c : List Char) (h : containsSub "```".data c = false) :
    containsSub "```json".data (('\n' :: (c ++ ['\n'])) ++ "```".data) = false := by
  by_contra hcon
  rw [Bool.not_eq_false] at hcon
  obtain ⟨i, hi⟩ := (containsSub_iff _ _).mp hcon
  by_cases hlt : i < ('\n' :: (c ++ ['\n'])).length
  · have htick : isPrefixList "```".data
        (List.drop i (('\n' :: (c ++ ['\n'])) ++ "```".data)) = true :=
      isPrefixList_append_left "```".data "json".data _
        (by rw [show "```".data ++ "json".data = "```json".data from rfl]; exact hi)
    rw [ticks_not_prefix_mid c h i hlt] at htick
    exact Bool.false_ne_true htick
  · rw [Nat.not_lt] at hlt
    rw [List.drop_append_eq_append_drop, List.drop_eq_nil_of_le hlt, List.nil_append] at hi
    have h7 : ("```json".data).length ≤ (List.drop (i - ('\n' :: (c ++ ['\n'])).length) "```".data).length :=
      isPrefixList_length_le _ _ hi
    rw [show ("```json".data).length = 7 from rfl, List.length_drop,
        show ("```".data).length = 3 from rfl] at h7
    omega

/-- Replacing `` ```json `` in the tag-fenced text removes exactly the
leading tag. -/
theorem replace_tag_wrapped (c : List Char) (h : containsSub "```".data c = false) :
    pyReplace "```json".data [] (("```json\n".data ++ c) ++ "\n```".data) =
      ('\n' :: (c ++ ['\n'])) ++ "```".data := by
  unfold pyReplace
  have hshape : (("```json\n".data ++ c) ++ "\n```".data) =
      "```json".data ++ (('\n' :: (c ++ ['\n'])) ++ "```".data) := by
    rw [show "```json\n".data = "```json".data ++ ['\n'] from rfl]
    simp
  rw [hshape]
  have hlen : ("```json".data ++ (('\n' :: (c ++ ['\n'])) ++ "```".data)).length
      = (c.length + 11) + 1 := by
    rw [List.length_append, List.length_append,
        show ("```json".data).length = 7 from rfl, show ("```".data).length = 3 from rfl]
    simp
    omega
  rw [hlen, replaceAux_head_match _ _ _ (by decide)]
  exact replaceAux_no_occ _ _ _ (no_occurrence_tag c h)

/-- Replacing `` ``` `` in the fenced remainder removes exactly the
trailing fence. -/
theorem replace_ticks_rest (c : List Char) (h : containsSub "```".data c = false)
    (f : Nat) (hf : f - ('\n' :: (c ++ ['\n'])).length ≠ 0) :
    replaceAux "```".data [] f (('\n' :: (c ++ ['\n'])) ++ "```".data) =
      '\n' :: (c ++ ['\n']) := by
  rw [replaceAux_skip "```".data ('\n' :: (c ++ ['\n'])) "```".data f
        (ticks_not_prefix_mid c h)]
  rw [replaceAux_self _ _ (by decide) hf]
  simp

/-- `strip` is the identity on the tag-fenced text (backticks at both
ends). -/
theorem strip_id_wrapped_tag (c : List Char) :
    pyStrip (("```json\n".data ++ c) ++ "\n```".data) =
      ("```json\n".data ++ c) ++ "\n```".data := by
  have hshape : (("```json\n".data ++ c) ++ "\n```".data)
      = btick :: (("``json\n".data ++ (c ++ "\n``".data)) ++ [btick]) := by
    rw [show "```json\n".data = btick :: "``json\n".data from rfl,
        show "\n```".data = "\n``".data ++ [btick] from rfl]
    simp
  rw [hshape]
  exact pyStrip_id_of_ends btick btick _ (by decide) (by decide)

/-- `strip` is the identity on the untagged fenced text. -/
theorem strip_id_wrapped_untag (c : List Char) :
    pyStrip (("```\n".data ++ c) ++ "\n```".data) =
      ("```\n".data ++ c) ++ "\n```".data := by
  have hshape : (("```\n".data ++ c) ++ "\n```".data)
      = btick :: (("``\n".data ++ (c ++ "\n``".data)) ++ [btick]) := by
    rw [show "```\n".data = btick :: "``\n".data from rfl,
        show "\n```".data = "\n``".data ++ [btick] from rfl]
    simp
  rw [hshape]
  exact pyStrip_id_of_ends btick btick _ (by decide) (by decide)

/-- `strip` of `'\n' :: c ++ ['\n']` is `strip c`. -/
theorem pyStrip_nl_wrap (c : List Char) : pyStrip ('\n' :: (c ++ ['\n'])) = pyStrip c := by
  rw [show '\n' :: (c ++ ['\n']) = ('\n' :: c) ++ ['\n'] from rfl, pyStrip_append_nl,
      pyStrip_cons_nl]

/-- Preprocessing the tag-fenced content yields exactly the stripped
content. -/
theorem preprocessed_wrapped_tag (c : List Char) (h : containsSub "```".data c = false) :
    preprocessed (("```json\n".data ++ c) ++ "\n```".data) = pyStrip c := by
  unfold preprocessed
  rw [strip_id_wrapped_tag c]
  unfold strip_code_fences
  rw [if_pos (by
    rw [show (("```json\n".data ++ c) ++ "\n```".data) =
        "```json".data ++ (('\n' :: (c ++ ['\n'])) ++ "```".data) by
      rw [show "```json\n".data = "```json".data ++ ['\n'] from rfl]; simp]
    exact isPrefixList_refl_append _ _)]
  rw [replace_tag_wrapped c h]
  unfold pyReplace
  rw [replace_ticks_rest c h _ (by
    rw [List.length_append, show ("```".data).length = 3 from rfl]
    simp)]
  exact pyStrip_nl_wrap c

/-- Preprocessing the untagged fenced content yields exactly the
stripped content. -/
theorem preprocessed_wrapped_untag (c : List Char) (h : containsSub "```".data c = false) :
    preprocessed (("```\n".data ++ c) ++ "\n```".data) = pyStrip c := by
  unfold preprocessed
  rw [strip_id_wrapped_untag c]
  unfold strip_code_fences
  have hshape : (("```\n".data ++ c) ++ "\n```".data) =
      "```".data ++ (('\n' :: (c ++ ['\n'])) ++ "```".data) := by
    rw [show "```\n".data = "```".data ++ ['\n'] from rfl]
    simp
  rw [if_neg (by
    rw [show "```json".data = "```".data ++ "json".data from rfl, hshape,
        isPrefixList_append_cancel]
    rw [show isPrefixList "json".data (('\n' :: (c ++ ['\n'])) ++ "```".data) = false from rfl]
    simp)]
  rw [if_pos (by rw [hshape]; exact isPrefixList_refl_append _ _)]
  rw [hshape]
  unfold pyReplace
  have hlen : ("```".data ++ (('\n' :: (c ++ ['\n'])) ++ "```".data)).length
      = (c.length + 7) + 1 := by
    rw [List.length_append, List.length_append,
        show ("```".data).length = 3 from rfl]
    simp
    omega
  rw [hlen, replaceAux_head_match _ _ _ (by decide)]
  rw [replace_ticks_rest c h _ (by simp)]
  exact pyStrip_nl_wrap c

/-- Preprocessing content with no `` ``` `` is just `strip`. -/
theorem preprocessed_unwrapped (c : List Char) (h : containsSub "```".data c = false) :
    preprocessed c = pyStrip c := by
  unfold preprocessed strip_code_fences
  rw [if_neg (by
    intro hcon
    have h1 : isPrefixList "```".data (pyStrip c) = true :=
      isPrefixList_append_left "```".data "json".data _
        (by rw [show "```".data ++ "json".data = "```json".data from rfl]; exact hcon)
    have h2 : containsSub "```".data c = true :=
      containsSub_pyStrip _ _ (containsSub_of_isPrefix _ _ h1)
    rw [h] at h2
    exact Bool.false_ne_true h2)]
  rw [if_neg (by
    intro hcon
    have h2 : containsSub "```".data c = true :=
      containsSub_pyStrip _ _ (containsSub_of_isPrefix _ _ hcon)
    rw [h] at h2
    exact Bool.false_ne_true h2)]

/-! ## Single-character membership transfer -/

/-- `in` distributes over append. -/
theorem containsChar_append (c : Char) (a b : List Char) :
    containsChar c (a ++ b) = (containsChar c a || containsChar c b) := by
  induction a with
  | nil => simp [containsChar]
  | cons x xs ih => simp [containsChar, ih, Bool.or_assoc]

/-- A character of a suffix is a character of the list. -/
theorem containsChar_drop_of (ch : Char) (n : Nat) :
    ∀ l, containsChar ch (List.drop n l) = true → containsChar ch l = true := by
  induction n with
  | zero => intro l h; exact h
  | succ m ih =>
    intro l h
    cases l with
    | nil => exact h
    | cons x xs =>
      rw [List.drop_succ_cons] at h
      rw [containsChar, Bool.or_eq_true]
      exact Or.inr (ih xs h)

/-- Deleting pattern occurrences introduces no new characters. -/
theorem containsChar_replaceAux_of (ch : Char) (pat : List Char) (f : Nat) :
    ∀ s, containsChar ch (replaceAux pat [] f s) = true → containsChar ch s = true := by
  induction f with
  | zero => intro s h; cases s with
    | nil => exact h
    | cons c cs => exact h
  | succ f ih =>
    intro s h
    cases s with
    | nil => exact h
    | cons c cs =>
      rw [replaceAux] at h
      by_cases hpre : isPrefixList pat (c :: cs) = true
      · rw [if_pos hpre, List.nil_append] at h
        exact containsChar_drop_of ch pat.length _ (ih _ h)
      · rw [if_neg hpre, containsChar, Bool.or_eq_true] at h
        rw [containsChar, Bool.or_eq_true]
        cases h with
        | inl h => exact Or.inl h
        | inr h => exact Or.inr (ih cs h)

/-- A character of `lstrip l` is a character of `l`. -/
theorem containsChar_pyLStrip_of (ch : Char) :
    ∀ l, containsChar ch (pyLStrip l) = true → containsChar ch l = true := by
  intro l
  induction l with
  | nil => exact fun h => h
  | cons c cs ih =>
    intro h
    by_cases hc : isPySpace c = true
    · rw [pyLStrip_cons_ws c _ hc] at h
      rw [containsChar, Bool.or_eq_true]
      exact Or.inr (ih h)
    · rw [Bool.not_eq_true] at hc
      rwa [pyLStrip_cons_not_ws c _ hc] at h

/-- `in` is invariant under reversal. -/
theorem containsChar_reverse (ch : Char) (l : List Char) :
    containsChar ch l.reverse = containsChar ch l := by
  induction l with
  | nil => rfl
  | cons x xs ih =>
    rw [List.reverse_cons, containsChar_append, ih, containsChar]
    simp [containsChar, Bool.or_comm]

/-- A character of `strip l` is a character of `l`. -/
theorem containsChar_pyStrip_of (ch : Char) (l : List Char)
    (h : containsChar ch (pyStrip l) = true) : containsChar ch l = true := by
  unfold pyStrip pyRStrip at h
  have h1 := containsChar_pyLStrip_of ch _ h
  rw [containsChar_reverse] at h1
  have h2 := containsChar_pyLStrip_of ch _ h1
  rwa [containsChar_reverse] at h2

/-- A character of the preprocessed text is a character of the raw
text. -/
theorem containsChar_preprocessed_of (ch : Char) (t0 : List Char)
    (h : containsChar ch (preprocessed t0) = true) : containsChar ch t0 = true := by
  unfold preprocessed strip_code_fences pyReplace at h
  by_cases h1 : isPrefixList "```json".data (pyStrip t0) = true
  · rw [if_pos h1] at h
    exact containsChar_pyStrip_of ch t0
      (containsChar_replaceAux_of ch _ _ _
        (containsChar_replaceAux_of ch _ _ _ (containsChar_pyStrip_of ch _ h)))
  · rw [if_neg h1] at h
    by_cases h2 : isPrefixList "```".data (pyStrip t0) = true
    · rw [if_pos h2] at h
      exact containsChar_pyStrip_of ch t0
        (containsChar_replaceAux_of ch _ _ _ (containsChar_pyStrip_of ch _ h))
    · rw [if_neg h2] at h
      exact containsChar_pyStrip_of ch t0 h

/-- Absence of a character survives preprocessing. -/
theorem containsChar_preprocessed_false (ch : Char) (t0 : List Char)
    (h : containsChar ch t0 = false) : containsChar ch (preprocessed t0) = false := by
  by_contra hcon
  rw [Bool.not_eq_false] at hcon
  rw [containsChar_preprocessed_of ch t0 hcon] at h
  exact Bool.false_ne_true h.symm

/-- `find` reports `-1` for an absent character. -/
theorem pyFindChar_eq_neg_of (ch : Char) :
    ∀ l, containsChar ch l = false → pyFindChar ch l = -1 := by
  intro l
  induction l with
  | nil => exact fun _ => rfl
  | cons x xs ih =>
    intro h
    rw [containsChar, Bool.or_eq_false_iff] at h
    simp only [pyFindChar]
    rw [if_neg (of_decide_eq_false h.1), ih h.2]
    simp

/-- The keyword coercion never yields a bare string: a string is
turned into a list, anything else is passed through unchanged. -/
theorem coerceKeywords_not_vstr (v : PyVal) : ∀ t, coerceKeywords v ≠ .vstr t := by
  cases v <;> simp [coerceKeywords]

/-- The keyword coercion leaves every non-string value unchanged. -/
theorem coerceKeywords_of_not_vstr (v : PyVal) (h : ∀ s, v ≠ .vstr s) :
    coerceKeywords v = v := by
  cases v <;> first
  | rfl
  | exact absurd rfl (h _)

/-- Coercing a string keyword field yields a list of strings. -/
theorem isStringList_coerceKeywords_vstr (s : String) :
    isStringList (coerceKeywords (.vstr s)) = true := by
  simp only [coerceKeywords, isStringList]
  rw [List.all_eq_true]
  intro v hv
  rw [List.mem_map] at hv
  obtain ⟨kw, _, rfl⟩ := hv
  rfl

/-- A successful field extraction never carries a bare string in the
keyword field. -/
theorem extract_fields_not_vstr (v : PyVal) (r : AnalysisResult)
    (h : extract_fields v = .ok r) : ∀ t, r.missing_keywords ≠ .vstr t := by
  cases v <;> simp only [extract_fields, Except.ok.injEq, reduceCtorEq] at h
  subst h
  exact fun t => coerceKeywords_not_vstr _ t

/-- The no-JSON-structure branch (lines 140-147): when the processed
text has no opening brace, the core returns the default-filled
result. -/
theorem core_no_brace (t : List Char) (h : pyFindChar lbrace t = -1) :
    parse_ai_response_core t = .ok ⟨"0%", .vlist [], truncatedSummary t⟩ := by
  simp [parse_ai_response_core, h]

/-- The normalizer's keyword field is never a bare string, on any
input and any path. -/
theorem parse_chars_kw_not_vstr (t0 : List Char) :
    ∀ t, (parse_ai_response_chars t0).missing_keywords ≠ .vstr t := by
  unfold parse_ai_response_chars
  cases hb : parse_ai_response_body t0 with
  | error e => simp
  | ok r =>
    intro t
    unfold parse_ai_response_body parse_ai_response_core at hb
    split at hb
    · split at hb
      · exact absurd hb (by simp)
      · exact extract_fields_not_vstr _ _ hb t
    · rw [Except.ok.injEq] at hb
      subst hb
      simp

/-- The retry loop when all three attempts fail: three attempts, two
1-second sleeps, and the fallback return. -/
theorem retry_exhausted (invoke : Nat → Except PyErr String) (e0 e1 e2 : PyErr)
    (h0 : invoke 0 = .error e0) (h1 : invoke 1 = .error e1) (h2 : invoke 2 = .error e2) :
    retry_go invoke 2 0 3 = (3, [1, 1], .fallbackReturn) := by
  simp [retry_go, h0, h1, h2]

/-- The retry loop when the first attempt succeeds. -/
theorem retry_success0 (invoke : Nat → Except PyErr String) (t : String)
    (h : invoke 0 = .ok t) : retry_go invoke 2 0 3 = (1, [], .success t) := by
  simp [retry_go, h]

/-- The retry loop when the second attempt is the first success. -/
theorem retry_success1 (invoke : Nat → Except PyErr String) (t : String) (e0 : PyErr)
    (h0 : invoke 0 = .error e0) (h : invoke 1 = .ok t) :
    retry_go invoke 2 0 3 = (2, [1], .success t) := by
  simp [retry_go, h0, h]

/-- The retry loop when the third attempt is the first success. -/
theorem retry_success2 (invoke : Nat → Except PyErr String) (t : String) (e0 e1 : PyErr)
    (h0 : invoke 0 = .error e0) (h1 : invoke 1 = .error e1) (h : invoke 2 = .ok t) :
    retry_go invoke 2 0 3 = (3, [1, 1], .success t) := by
  simp [retry_go, h0, h1, h]

/-- The post-hoc validation is a frame on `jd_match` and
`missing_keywords`, and touches the summary only under the source's
conditions (lines 278-281). -/
theorem validate_frame (r : AnalysisResult) (n : Nat) :
    (validate_response r n).jd_match = r.jd_match
    ∧ (validate_response r n).missing_keywords = r.missing_keywords
    ∧ ((validate_response r n).profile_summary ≠ r.profile_summary →
        (r.jd_match = "" ∨ r.jd_match = "0%")
        ∧ (r.profile_summary = "" ∨ containsSub "Error".data r.profile_summary.data = true)) := by
  unfold validate_response
  by_cases h1 : r.jd_match = "" ∨ r.jd_match = "0%"
  · rw [if_pos h1]
    by_cases h2 : r.profile_summary = "" ∨ containsSub "Error".data r.profile_summary.data = true
    · rw [if_pos h2]
      exact ⟨rfl, rfl, fun _ => ⟨h1, h2⟩⟩
    · rw [if_neg h2]
      exact ⟨rfl, rfl, fun hne => absurd rfl hne⟩
  · rw [if_neg h1]
    exact ⟨rfl, rfl, fun hne => absurd rfl hne⟩

/-! # Claim theorems -/

/-- **C1**: for every raw model output string — including the empty
string, plain prose, fenced JSON, single-quoted JSON, JSON with the
alternate key names, and JSON whose keywords come as one comma-joined
string — `parse_ai_response` returns a result with all three fields
`jd_match`, `missing_keywords`, `profile_summary`, and never raises
(every fallible step is caught; the function is total). -/
theorem C1_normalize_total_wellformed :
    (∀ s : String, ∃ jm mk ps, parse_ai_response s = AnalysisResult.mk jm mk ps)
    ∧ parse_ai_response "" = ⟨"0%", .vlist [], ""⟩
    ∧ parse_ai_response "I cannot analyze this." = ⟨"0%", .vlist [], "I cannot analyze this."⟩
    ∧ parse_ai_response "```json\n\x7b\"JD Match\": \"55%\"\x7d\n```" =
        ⟨"55%", .vlist [], "No summary available"⟩
    ∧ parse_ai_response ("\x7b" ++ sglq ++ "JD Match" ++ sglq ++ ":" ++ sglq ++ "5%" ++ sglq ++ "\x7d") =
        ⟨"5%", .vlist [], "No summary available"⟩
    ∧ parse_ai_response
        "\x7b\"jd_match\": \"10%\", \"missing_keywords\": [\"A\"], \"profile_summary\": \"ok\"\x7d" =
        ⟨"10%", .vlist [.vstr "A"], "ok"⟩
    ∧ parse_ai_response "\x7b\"MissingKeywords\": \"A, B\"\x7d" =
        ⟨"0%", .vlist [.vstr "A", .vstr "B"], "No summary available"⟩ :=
  ⟨fun _ => ⟨_, _, _, rfl⟩, rfl, rfl, rfl, rfl, rfl, rfl⟩

/-- **C2** (counterexample): the claim says the keyword field of the
result is always a sequence of strings even when the JSON supplies a
value of a different type; but for the raw output whose
`MissingKeywords` is the number 42, the source passes the number
through unchanged, so the field is not a sequence of strings. -/
theorem C2_counterexample :
    (parse_ai_response "\x7b\"MissingKeywords\": 42\x7d").missing_keywords = PyVal.vint 42
    ∧ isStringList (parse_ai_response "\x7b\"MissingKeywords\": 42\x7d").missing_keywords
        = false :=
  ⟨rfl, rfl⟩

/-- **C2** (amended): the match and summary fields are always strings
(they pass through `str()`); the keyword field is never a bare string
— a string is coerced to a list of trimmed non-empty strings, and an
absent key defaults to the empty list — but any other JSON value
supplied for the keyword key is passed through unchanged and need not
be a sequence of strings. -/
theorem C2_field_kinds :
    (∀ (s : String) (t : String), (parse_ai_response s).missing_keywords ≠ .vstr t)
    ∧ (∀ entries : List (String × PyVal),
        extract_fields (.vdict entries) =
          .ok ⟨String.mk (pystr (dictGet entries "JD Match"
                  (dictGet entries "jd_match" (.vstr "0%")))),
               coerceKeywords (dictGet entries "MissingKeywords"
                  (dictGet entries "missing_keywords" (.vlist []))),
               String.mk (pystr (dictGet entries "Profile Summary"
                  (dictGet entries "profile_summary" (.vstr "No summary available"))))⟩)
    ∧ (∀ s : String, isStringList (coerceKeywords (.vstr s)) = true)
    ∧ (∀ v : PyVal, (∀ s, v ≠ .vstr s) → coerceKeywords v = v) :=
  ⟨fun s t => parse_chars_kw_not_vstr s.data t,
   fun _ => rfl,
   isStringList_coerceKeywords_vstr,
   coerceKeywords_of_not_vstr⟩

/-- Witness for C2's amended statement at concrete values. -/
theorem C2_field_kinds_witness :
    (parse_ai_response "arbitrary text").missing_keywords ≠ PyVal.vstr "x"
    ∧ coerceKeywords (.vint 7) = .vint 7 :=
  ⟨C2_field_kinds.1 "arbitrary text" "x",
   C2_field_kinds.2.2.2 (.vint 7) (by simp)⟩

/-- **C3**: when every invocation attempt fails, `analyze_resume`
stops after exactly three attempts (`max_retries = 2`), sleeps 1
second between consecutive attempts, never raises (it is total and
returns a payload), and returns the synthesized fallback whose
summary says the AI service is unavailable and embeds the length of
the extracted resume text. -/
theorem C3_retry_exhaustion (invoke : Nat → Except PyErr String) (resume_text : List Char)
    (h : ∀ i, i ≤ 2 → ∃ e, invoke i = .error e) :
    analyze_resume invoke resume_text =
      ⟨3, [1, 1], ⟨fallback_unavailable resume_text, 200⟩⟩
    ∧ (fallback_unavailable resume_text).profile_summary =
        "Analysis temporarily unavailable due to AI service issues. Resume contains " ++
          toString resume_text.length ++ " characters of text. Please try again later." := by
  obtain ⟨e0, h0⟩ := h 0 (by omega)
  obtain ⟨e1, h1⟩ := h 1 (by omega)
  obtain ⟨e2, h2⟩ := h 2 (by omega)
  refine ⟨?_, rfl⟩
  unfold analyze_resume
  rw [retry_exhausted invoke e0 e1 e2 h0 h1 h2]

/-- Witness for C3 at a concrete always-failing invoker. -/
theorem C3_retry_exhaustion_witness :
    analyze_resume (fun _ => .error "transport failure") "resume body".data =
      ⟨3, [1, 1], ⟨fallback_unavailable "resume body".data, 200⟩⟩
    ∧ (fallback_unavailable "resume body".data).profile_summary =
        "Analysis temporarily unavailable due to AI service issues. Resume contains " ++
          toString ("resume body".data).length ++
          " characters of text. Please try again later." :=
  C3_retry_exhaustion (fun _ => .error "transport failure") "resume body".data
    (fun _ _ => ⟨"transport failure", rfl⟩)

/-- **C4** (counterexample): the claim says every degraded result has
a zero-ish match field such as `"0%"`; but when all invocation
attempts are exhausted the source returns the fallback with match
field `"50%"`. -/
theorem C4_counterexample :
    (analyze_resume (fun _ => .error "down") "ab".data).response.body.jd_match = "50%"
    ∧ (analyze_resume (fun _ => .error "down") "ab".data).response.body.jd_match ≠ "0%" :=
  ⟨rfl, by decide⟩

/-- **C4** (amended): whenever the pipeline degrades the caller still
receives a syntactically valid result object with placeholder text:
a parse/normalize failure yields match `"0%"` (with empty keyword
list), but exhausted invocation attempts yield the fallback whose
match field is `"50%"`, not a zero-ish score. -/
theorem C4_degraded_still_valid :
    (∀ (invoke : Nat → Except PyErr String) (rt : List Char),
       (∀ i, i ≤ 2 → ∃ e, invoke i = .error e) →
       (analyze_resume invoke rt).response.body = fallback_unavailable rt
       ∧ (fallback_unavailable rt).jd_match = "50%"
       ∧ (analyze_resume invoke rt).response.status = 200)
    ∧ (∀ (t0 : List Char) (e : PyErr), parse_ai_response_body t0 = .error e →
       parse_ai_response_chars t0 = ⟨"0%", .vlist [], "Error parsing response: " ++ e⟩)
    ∧ (∀ t0 : List Char, pyFindChar lbrace (preprocessed t0) = -1 →
       (parse_ai_response_chars t0).jd_match = "0%"
       ∧ (parse_ai_response_chars t0).missing_keywords = .vlist []) := by
  refine ⟨?_, ?_, ?_⟩
  · intro invoke rt h
    obtain ⟨e0, h0⟩ := h 0 (by omega)
    obtain ⟨e1, h1⟩ := h 1 (by omega)
    obtain ⟨e2, h2⟩ := h 2 (by omega)
    unfold analyze_resume
    rw [retry_exhausted invoke e0 e1 e2 h0 h1 h2]
    exact ⟨rfl, rfl, rfl⟩
  · intro t0 e h
    unfold parse_ai_response_chars
    rw [h]
  · intro t0 h
    unfold parse_ai_response_chars parse_ai_response_body
    rw [core_no_brace _ h]
    exact ⟨rfl, rfl⟩

/-- Witness for C4's amended statement: the exhausted-retries branch
at a concrete invoker, and the parse-failure branch at concrete
brace-free prose. -/
theorem C4_degraded_still_valid_witness :
    (analyze_resume (fun _ => .error "down again") "abcd".data).response.body =
      fallback_unavailable "abcd".data
    ∧ (parse_ai_response_chars "no structured output".data).jd_match = "0%" :=
  ⟨(C4_degraded_still_valid.1 (fun _ => .error "down again") "abcd".data
      (fun _ _ => ⟨"down again", rfl⟩)).1,
   (C4_degraded_still_valid.2.2 "no structured output".data (by decide)).1⟩

/-- **C5**: a JSON object carrying the three secondary key names
(`jd_match`, `missing_keywords`, `profile_summary`) extracts to
exactly the same result as one carrying the primary key names
(`JD Match`, `MissingKeywords`, `Profile Summary`) with identical
values. -/
theorem C5_secondary_keys_equivalent (m k p : PyVal) :
    extract_fields (.vdict [("jd_match", m), ("missing_keywords", k), ("profile_summary", p)]) =
    extract_fields (.vdict [("JD Match", m), ("MissingKeywords", k), ("Profile Summary", p)]) :=
  rfl

/-- **C7**: the fenced, single-quoted scenario output normalizes to
match `"40%"`, no missing keywords, and the expected summary; the
strict parse of the fence-stripped text fails, and the repair pass
(single quotes to double quotes) makes it succeed. -/
theorem C7_fenced_single_quoted_normalizes :
    parse_ai_response c7_raw = ⟨"40%", .vlist [], "Needs more cloud experience"⟩
    ∧ (∃ e, jsonLoads (preprocessed c7_raw.data) = .error e)
    ∧ parse_candidate (preprocessed c7_raw.data) =
        .ok (.vdict [("JD Match", .vstr "40%"), ("MissingKeywords", .vlist []),
                     ("Profile Summary", .vstr "Needs more cloud experience")]) :=
  ⟨rfl, ⟨_, rfl⟩, rfl⟩

/-- **C9**: a keyword field supplied as a single string is split on
commas, each piece stripped, empty pieces dropped; in particular
`"Python, Docker,  AWS"` becomes the sequence
`["Python", "Docker", "AWS"]`, both at the coercion step and end to
end through `parse_ai_response`. -/
theorem C9_keyword_string_split :
    (∀ (m p : PyVal) (s : String),
      extract_fields (.vdict [("JD Match", m), ("MissingKeywords", .vstr s),
                              ("Profile Summary", p)]) =
        .ok ⟨String.mk (pystr m),
             .vlist (((pySplitChar ',' s.data).filter (fun kw => pyStrip kw ≠ [])).map
               (fun kw => PyVal.vstr (String.mk (pyStrip kw)))),
             String.mk (pystr p)⟩)
    ∧ coerceKeywords (.vstr "Python, Docker,  AWS") =
        .vlist [.vstr "Python", .vstr "Docker", .vstr "AWS"]
    ∧ parse_ai_response
        "\x7b\"JD Match\":\"7%\",\"MissingKeywords\":\"Python, Docker,  AWS\",\"Profile Summary\":\"s\"\x7d" =
        ⟨"7%", .vlist [.vstr "Python", .vstr "Docker", .vstr "AWS"], "s"⟩ :=
  ⟨fun _ _ _ => rfl, rfl, rfl⟩

/-- **C6** (counterexample): fence wrapping is NOT transparent for
every content string.  The source strips fences with a global
`str.replace`, so for content whose JSON string value contains
`` ``` ``, the wrapped form loses those backticks (`"12"` instead of
`"1```2"`), and the two normalizations differ. -/
theorem C6_counterexample :
    (parse_ai_response c6_wrapped).jd_match = "12"
    ∧ (parse_ai_response c6_content).jd_match = "1```2"
    ∧ parse_ai_response c6_wrapped ≠ parse_ai_response c6_content :=
  ⟨rfl, rfl, fun hEq => absurd (congrArg AnalysisResult.jd_match hEq) (by decide)⟩

/-- **C6** (amended): for every content string containing no
occurrence of `` ``` ``, normalizing the content wrapped in
leading/trailing code fences — with or without the `json` language
tag — yields exactly the same result as normalizing the content
unwrapped. -/
theorem C6_fence_invariance (c : List Char) (h : containsSub "```".data c = false) :
    parse_ai_response_chars (("```json\n".data ++ c) ++ "\n```".data) =
      parse_ai_response_chars c
    ∧ parse_ai_response_chars (("```\n".data ++ c) ++ "\n```".data) =
      parse_ai_response_chars c := by
  unfold parse_ai_response_chars parse_ai_response_body
  rw [preprocessed_wrapped_tag c h, preprocessed_wrapped_untag c h, preprocessed_unwrapped c h]
  exact ⟨rfl, rfl⟩

/-- Witness for C6's amended statement at concrete backtick-free
content. -/
theorem C6_fence_invariance_witness :
    containsSub "```".data "benign model output".data = false
    ∧ parse_ai_response_chars (("```json\n".data ++ "benign model output".data) ++ "\n```".data) =
        parse_ai_response_chars "benign model output".data
    ∧ parse_ai_response_chars (("```\n".data ++ "benign model output".data) ++ "\n```".data) =
        parse_ai_response_chars "benign model output".data :=
  ⟨by decide,
   (C6_fence_invariance "benign model output".data (by decide)).1,
   (C6_fence_invariance "benign model output".data (by decide)).2⟩

/-- **C8** (counterexample): for a brace-free raw output that starts
with a fence marker, the summary is the fence-stripped text, not the
raw trimmed text the claim promises. -/
theorem C8_counterexample :
    parse_ai_response "```x" = ⟨"0%", .vlist [], "x"⟩
    ∧ (parse_ai_response "```x").profile_summary ≠ String.mk (pyStrip "```x".data) :=
  ⟨rfl, by decide⟩

/-- **C8** (amended): for every raw output with no `{`, the
normalizer returns match `"0%"`, an empty keyword sequence, and a
summary equal to the trimmed, fence-stripped text, truncated to 500
characters with an appended `"..."` when longer. -/
theorem C8_no_json_fallback (s : String) (h : containsChar lbrace s.data = false) :
    parse_ai_response s = ⟨"0%", .vlist [], truncatedSummary (preprocessed s.data)⟩ := by
  have h3 : pyFindChar lbrace (preprocessed s.data) = -1 :=
    pyFindChar_eq_neg_of lbrace _ (containsChar_preprocessed_false lbrace _ h)
  unfold parse_ai_response parse_ai_response_chars parse_ai_response_body
  rw [core_no_brace _ h3]

/-- Witness for C8's amended statement: the spec's own scenario input
normalizes to itself as summary. -/
theorem C8_no_json_fallback_witness :
    parse_ai_response "I cannot process this request." =
      ⟨"0%", .vlist [], "I cannot process this request."⟩ :=
  (C8_no_json_fallback "I cannot process this request." (by decide)).trans rfl

/-- **C10**: whenever some invocation attempt succeeds (with the
non-empty text a successful `get_gemini_response` always carries),
the returned payload is the validated normalizer output, whose match
and keyword fields are exactly the normalizer's; only the summary may
be replaced, and only when the match field is empty or `"0%"` and the
summary is empty or contains `'Error'`. -/
theorem C10_success_frame (invoke : Nat → Except PyErr String) (rt : List Char)
    (t : String) (k : Nat) (hk : k ≤ 2) (hok : invoke k = .ok t) (hne : t ≠ "")
    (hprev : ∀ j, j < k → ∃ e, invoke j = .error e) :
    (analyze_resume invoke rt).response.body =
      validate_response (parse_ai_response t) rt.length
    ∧ (analyze_resume invoke rt).response.status = 200
    ∧ (analyze_resume invoke rt).response.body.jd_match = (parse_ai_response t).jd_match
    ∧ (analyze_resume invoke rt).response.body.missing_keywords =
        (parse_ai_response t).missing_keywords
    ∧ ((analyze_resume invoke rt).response.body.profile_summary ≠
         (parse_ai_response t).profile_summary →
        ((parse_ai_response t).jd_match = "" ∨ (parse_ai_response t).jd_match = "0%")
        ∧ ((parse_ai_response t).profile_summary = ""
           ∨ containsSub "Error".data (parse_ai_response t).profile_summary.data = true)) := by
  have hout : analyze_resume invoke rt =
      ⟨k + 1, List.replicate k 1,
       ⟨validate_response (parse_ai_response t) rt.length, 200⟩⟩ := by
    have hloop : retry_go invoke 2 0 3 = (k + 1, List.replicate k 1, .success t) := by
      interval_cases k
      · exact retry_success0 invoke t hok
      · obtain ⟨e0, h0⟩ := hprev 0 (by omega)
        exact retry_success1 invoke t e0 h0 hok
      · obtain ⟨e0, h0⟩ := hprev 0 (by omega)
        obtain ⟨e1, h1⟩ := hprev 1 (by omega)
        exact retry_success2 invoke t e0 e1 h0 h1 hok
    unfold analyze_resume
    rw [hloop]
    simp [hne]
  obtain ⟨f1, f2, f3⟩ := validate_frame (parse_ai_response t) rt.length
  rw [hout]
  exact ⟨rfl, rfl, f1, f2, f3⟩

/-- Witness for C10 at a first-attempt success with concrete text. -/
theorem C10_success_frame_witness :
    (analyze_resume (fun _ => .ok "all good output") "cv".data).response.body =
      validate_response (parse_ai_response "all good output") ("cv".data).length
    ∧ (analyze_resume (fun _ => .ok "all good output") "cv".data).response.status = 200
    ∧ (analyze_resume (fun _ => .ok "all good output") "cv".data).response.body.jd_match =
        (parse_ai_response "all good output").jd_match
    ∧ (analyze_resume (fun _ => .ok "all good output") "cv".data).response.body.missing_keywords =
        (parse_ai_response "all good output").missing_keywords
    ∧ ((analyze_resume (fun _ => .ok "all good output") "cv".data).response.body.profile_summary ≠
         (parse_ai_response "all good output").profile_summary →
        ((parse_ai_response "all good output").jd_match = ""
          ∨ (parse_ai_response "all good output").jd_match = "0%")
        ∧ ((parse_ai_response "all good output").profile_summary = ""
           ∨ containsSub "Error".data
               (parse_ai_response "all good output").profile_summary.data = true)) :=
  C10_success_frame (fun _ => .ok "all good output") "cv".data "all good output" 0
    (by omega) rfl (by decide) (fun j hj => absurd hj (by omega))

end SmartATS
